import Mathlib

/-!
Verification of the murmur-hash repository (MurmurHash3 in TypeScript).

The development shallowly embeds the three hash engines and the streaming
wrappers from `src/hash32.ts` (shipped here as `v1-compat.ts`'s second file),
`src/hash128.ts` and `src/hash128x64.ts` (second file of `encoding.ts`).

Modelling conventions
  * Every JavaScript 32-bit quantity is modelled by its unsigned residue, a
    `Nat` kept below `2 ^ 32`.  JavaScript's `|0`, `^`, `|`, `&`, `<<`,
    `>>>` all coerce their operands with `ToInt32`/`ToUint32`, i.e. they
    only depend on (and only produce) the operand's residue mod `2 ^ 32`;
    consequently every spot where the JS code leaves a value momentarily
    unreduced (e.g. `h1 = multiply(h1, 5) + 0xe6546b64` or `h1 += h2`) is
    reduced eagerly here with `% 4294967296`, which yields the same residue
    at every subsequent 32-bit operation and at the final `>>> 0`.
  * `x & 0xffff` on an unsigned residue is `x % 65536`, `x >>> 16` is
    `x / 65536`, `x << n` is `(x <<< n) % 4294967296`, `|` is `|||`,
    `^` is `^^^`.
  * JavaScript shift counts are masked mod 32; the mask is written
    explicitly at the one reachable spot where it matters
    (`rotl64`, second branch, count `32 - n` with `n = 0`).
  * Byte sequences (`Uint8Array`) are `List Nat` whose members are < 256;
    seeds are `Int` (JavaScript numbers used as integers).  The engines read
    the seed for the first time through a 32-bit coercing operator on every
    control path, so the public entry points convert the seed with
    `toUint32` once, which is observationally identical.
-/

/-- The modulus `2 ^ 32` of all 32-bit lanes. -/
def W32 : Nat := 4294967296

/-- Model of the `ToUint32` coercion JavaScript applies to the seed
at its first use inside each engine (`^=`, `>>>`, `&` all coerce). -/
def toUint32 (s : Int) : Nat := (s % (4294967296 : Int)).toNat

/-- From `hash32.ts` / `hash128.ts` `multiply`:
`((a & 0xffff) * b + ((((a >>> 16) * b) & 0xffff) << 16)) | 0`,
read on unsigned residues. -/
def multiply (a b : Nat) : Nat :=
  ((a % 65536) * b + (((a / 65536) * b) % 65536) * 65536) % W32

/-- From `hash32.ts` / `hash128.ts` `rotl`:
`(value << shift) | (value >>> (32 - shift))`; the engines only call it with
shifts in 13..19, where JavaScript's mod-32 shift-count masking is the
identity. -/
def rotl (value shift : Nat) : Nat :=
  (value <<< shift) % W32 ||| value >>> (32 - shift)

/-- From `hash32.ts` / `hash128.ts` `fmix`. -/
def fmix (h : Nat) : Nat :=
  let h := h ^^^ h >>> 16
  let h := multiply h 0x85ebca6b
  let h := h ^^^ h >>> 13
  let h := multiply h 0xc2b2ae35
  h ^^^ h >>> 16

/-- Byte access `bytes[i]` on a `Uint8Array`; in-range accesses only are performed by the
engines, the default is never read. -/
def byteAt (bytes : List Nat) (i : Nat) : Nat := bytes.getD i 0

/-- Little-endian 32-bit word
`bytes[o] | (bytes[o+1] << 8) | (bytes[o+2] << 16) | (bytes[o+3] << 24)`. -/
def word32At (bytes : List Nat) (o : Nat) : Nat :=
  byteAt bytes o ||| byteAt bytes (o+1) <<< 8 |||
    byteAt bytes (o+2) <<< 16 ||| byteAt bytes (o+3) <<< 24

/-- The 4-byte block loop of `hash32.ts` `compute`; first argument counts the
remaining blocks, second is the running byte offset. -/
def h32loop (bytes : List Nat) : Nat → Nat → Nat → Nat
  | 0, _, h1 => h1
  | n+1, off, h1 =>
    let k1 := word32At bytes off
    let k1 := multiply k1 0xcc9e2d51
    let k1 := rotl k1 15
    let k1 := multiply k1 0x1b873593
    let h1 := h1 ^^^ k1
    let h1 := rotl h1 13
    let h1 := (multiply h1 5 + 0xe6546b64) % W32
    h32loop bytes n (off + 4) h1

/-- The `switch (len & 3)` tail of `hash32.ts` `compute`; `rem = len % 4`,
so `3 ≤ rem`, `2 ≤ rem`, `1 ≤ rem` are exactly the cases reached by the
fallthrough from `case 3`, `case 2`, `case 1`. -/
def h32tail (bytes : List Nat) (t rem h1 : Nat) : Nat :=
  if rem = 0 then h1 else
    let k1 := 0
    let k1 := if 3 ≤ rem then k1 ^^^ byteAt bytes (t+2) <<< 16 else k1
    let k1 := if 2 ≤ rem then k1 ^^^ byteAt bytes (t+1) <<< 8 else k1
    let k1 := k1 ^^^ byteAt bytes t
    let k1 := multiply k1 0xcc9e2d51
    let k1 := rotl k1 15
    let k1 := multiply k1 0x1b873593
    h1 ^^^ k1

/-- From `hash32.ts`, `compute`, on an already-coerced 32-bit seed. -/
def hash32compute (bytes : List Nat) (seed : Nat) : Nat :=
  let len := bytes.length
  let blocks := len / 4
  let h1 := h32loop bytes blocks 0 seed
  let h1 := h32tail bytes (blocks * 4) (len % 4) h1
  let h1 := h1 ^^^ len % W32
  let h1 := fmix h1
  h1 % W32

/-- Public `hash32(input, seed = 0)`; the input has already been through the
external byte-source adapter (`toBytes`). -/
def hash32 (bytes : List Nat) (seed : Int) : Nat :=
  hash32compute bytes (toUint32 seed)

/-! ### The x86 128-bit engine, `hash128.ts` -/

/-- One 16-byte block of `hash128.ts` `compute`, in source statement order.
Note `h4`'s cross-lane addition `h4 += h1` reads the `h1` that was already
updated earlier in the same iteration, while `h1 += h2`, `h2 += h3`,
`h3 += h4` read the not-yet-updated next lane. -/
def block128 (h1 h2 h3 h4 k1 k2 k3 k4 : Nat) : Nat × Nat × Nat × Nat :=
  let k1 := multiply k1 0x239b961b
  let k1 := rotl k1 15
  let k1 := multiply k1 0xab0e9789
  let h1 := h1 ^^^ k1
  let h1 := rotl h1 19
  let h1 := (h1 + h2) % W32
  let h1 := (multiply h1 5 + 0x561ccd1b) % W32
  let k2 := multiply k2 0xab0e9789
  let k2 := rotl k2 16
  let k2 := multiply k2 0x38b34ae5
  let h2 := h2 ^^^ k2
  let h2 := rotl h2 17
  let h2 := (h2 + h3) % W32
  let h2 := (multiply h2 5 + 0x0bcaa747) % W32
  let k3 := multiply k3 0x38b34ae5
  let k3 := rotl k3 17
  let k3 := multiply k3 0xa1e38b93
  let h3 := h3 ^^^ k3
  let h3 := rotl h3 15
  let h3 := (h3 + h4) % W32
  let h3 := (multiply h3 5 + 0x96cd1c35) % W32
  let k4 := multiply k4 0xa1e38b93
  let k4 := rotl k4 18
  let k4 := multiply k4 0x239b961b
  let h4 := h4 ^^^ k4
  let h4 := rotl h4 13
  let h4 := (h4 + h1) % W32
  let h4 := (multiply h4 5 + 0x32ac3b17) % W32
  (h1, h2, h3, h4)

/-- The 16-byte block loop of `hash128.ts` `compute`. -/
def h128loop (bytes : List Nat) : Nat → Nat → Nat × Nat × Nat × Nat → Nat × Nat × Nat × Nat
  | 0, _, h => h
  | n+1, off, (h1, h2, h3, h4) =>
    h128loop bytes n (off + 16)
      (block128 h1 h2 h3 h4 (word32At bytes off) (word32At bytes (off+4))
        (word32At bytes (off+8)) (word32At bytes (off+12)))

/-- The `switch (len & 15)` tail cascade of `hash128.ts` `compute`;
`rem = len % 16`, and `j ≤ rem` is exactly reachability of `case j` by the
descending fallthrough. -/
def h128tail (bytes : List Nat) (t rem h1 h2 h3 h4 : Nat) : Nat × Nat × Nat × Nat :=
  let k4 := 0
  let k4 := if 15 ≤ rem then k4 ^^^ byteAt bytes (t+14) <<< 16 else k4
  let k4 := if 14 ≤ rem then k4 ^^^ byteAt bytes (t+13) <<< 8 else k4
  let k4 := if 13 ≤ rem then k4 ^^^ byteAt bytes (t+12) else k4
  let h4 := if 13 ≤ rem then
      h4 ^^^ multiply (rotl (multiply k4 0xa1e38b93) 18) 0x239b961b else h4
  let k3 := 0
  let k3 := if 12 ≤ rem then k3 ^^^ byteAt bytes (t+11) <<< 24 else k3
  let k3 := if 11 ≤ rem then k3 ^^^ byteAt bytes (t+10) <<< 16 else k3
  let k3 := if 10 ≤ rem then k3 ^^^ byteAt bytes (t+9) <<< 8 else k3
  let k3 := if 9 ≤ rem then k3 ^^^ byteAt bytes (t+8) else k3
  let h3 := if 9 ≤ rem then
      h3 ^^^ multiply (rotl (multiply k3 0x38b34ae5) 17) 0xa1e38b93 else h3
  let k2 := 0
  let k2 := if 8 ≤ rem then k2 ^^^ byteAt bytes (t+7) <<< 24 else k2
  let k2 := if 7 ≤ rem then k2 ^^^ byteAt bytes (t+6) <<< 16 else k2
  let k2 := if 6 ≤ rem then k2 ^^^ byteAt bytes (t+5) <<< 8 else k2
  let k2 := if 5 ≤ rem then k2 ^^^ byteAt bytes (t+4) else k2
  let h2 := if 5 ≤ rem then
      h2 ^^^ multiply (rotl (multiply k2 0xab0e9789) 16) 0x38b34ae5 else h2
  let k1 := 0
  let k1 := if 4 ≤ rem then k1 ^^^ byteAt bytes (t+3) <<< 24 else k1
  let k1 := if 3 ≤ rem then k1 ^^^ byteAt bytes (t+2) <<< 16 else k1
  let k1 := if 2 ≤ rem then k1 ^^^ byteAt bytes (t+1) <<< 8 else k1
  let k1 := if 1 ≤ rem then k1 ^^^ byteAt bytes t else k1
  let h1 := if 1 ≤ rem then
      h1 ^^^ multiply (rotl (multiply k1 0x239b961b) 15) 0xab0e9789 else h1
  (h1, h2, h3, h4)

/-- Lowercase hex digit, as produced by `Number.prototype.toString(16)`. -/
def hexChar (n : Nat) : Char :=
  if n < 10 then Char.ofNat (48 + n) else Char.ofNat (87 + n)

/-- Rendering `('00000000' + h.toString(16)).slice(-8)` for `h < 2 ^ 32`: the eight
hex digits of `h`, most significant first, zero padded. -/
def toHex8 (h : Nat) : List Char :=
  [hexChar (h / 268435456 % 16), hexChar (h / 16777216 % 16),
   hexChar (h / 1048576 % 16), hexChar (h / 65536 % 16),
   hexChar (h / 4096 % 16), hexChar (h / 256 % 16),
   hexChar (h / 16 % 16), hexChar (h % 16)]

/-- Finalization plus hex rendering of `hash128.ts` `compute` (everything
after the tail `switch`). -/
def h128finalize (len h1 h2 h3 h4 : Nat) : String :=
  let h1 := h1 ^^^ len % W32
  let h2 := h2 ^^^ len % W32
  let h3 := h3 ^^^ len % W32
  let h4 := h4 ^^^ len % W32
  let h1 := (h1 + h2) % W32
  let h1 := (h1 + h3) % W32
  let h1 := (h1 + h4) % W32
  let h2 := (h2 + h1) % W32
  let h3 := (h3 + h1) % W32
  let h4 := (h4 + h1) % W32
  let h1 := fmix h1
  let h2 := fmix h2
  let h3 := fmix h3
  let h4 := fmix h4
  let h1 := (h1 + h2) % W32
  let h1 := (h1 + h3) % W32
  let h1 := (h1 + h4) % W32
  let h2 := (h2 + h1) % W32
  let h3 := (h3 + h1) % W32
  let h4 := (h4 + h1) % W32
  String.mk (toHex8 (h1 % W32) ++ toHex8 (h2 % W32) ++
    toHex8 (h3 % W32) ++ toHex8 (h4 % W32))

/-- From `hash128.ts`, `compute`, on an already-coerced 32-bit seed. -/
def hash128computeHex (bytes : List Nat) (seed : Nat) : String :=
  let len := bytes.length
  let blocks := len / 16
  let h := h128loop bytes blocks 0 (seed, seed, seed, seed)
  let t := h128tail bytes (blocks * 16) (len % 16) h.1 h.2.1 h.2.2.1 h.2.2.2
  h128finalize len t.1 t.2.1 t.2.2.1 t.2.2.2

/-- Output union `string | bigint` of the 128-bit hash functions. -/
inductive HashOut where
  | hex (s : String)
  | big (n : Nat)
deriving DecidableEq, Repr

/-- The `output` option of `Hash128Options`. -/
inductive HashOutput where
  | hex
  | bigint
deriving DecidableEq, Repr

/-- From `encoding.ts`, `hexToBigInt`: `BigInt('0x' + hex)`, i.e. base-16 parsing
of the digit string. -/
def hexDigitVal (c : Char) : Nat :=
  if 48 ≤ c.toNat ∧ c.toNat ≤ 57 then c.toNat - 48
  else if 97 ≤ c.toNat ∧ c.toNat ≤ 102 then c.toNat - 87
  else if 65 ≤ c.toNat ∧ c.toNat ≤ 70 then c.toNat - 55
  else 0

/-- Base-16 parse of a hex string, the model of JavaScript's
`BigInt('0x' + hex)`. -/
def hexToBigInt (s : String) : Nat :=
  s.data.foldl (fun acc c => acc * 16 + hexDigitVal c) 0

/-- Public `hash128(input, options?)`; `options?.seed ?? 0` and
`options?.output === 'bigint'` are modelled with `Option.getD`. -/
def hash128 (bytes : List Nat) (seedOpt : Option Int) (outOpt : Option HashOutput) :
    HashOut :=
  let seed := seedOpt.getD 0
  let hex := hash128computeHex bytes (toUint32 seed)
  match outOpt.getD HashOutput.hex with
  | HashOutput.bigint => HashOut.big (hexToBigInt hex)
  | HashOutput.hex => HashOut.hex hex

/-! ### The x64 128-bit engine, `hash128x64.ts`

64-bit values are `[hi32, lo32]` limb pairs, modelled as `Nat × Nat` with
both components kept below `2 ^ 32`. -/

/-- From `hash128x64.ts`, `add64`: schoolbook addition on four 16-bit limbs with
low-to-high carry propagation, truncated to 64 bits. -/
def add64 (a b : Nat × Nat) : Nat × Nat :=
  let a0 := a.1 / 65536
  let a1 := a.1 % 65536
  let a2 := a.2 / 65536
  let a3 := a.2 % 65536
  let b0 := b.1 / 65536
  let b1 := b.1 % 65536
  let b2 := b.2 / 65536
  let b3 := b.2 % 65536
  let c3 := a3 + b3
  let c2 := c3 / 65536
  let c3 := c3 % 65536
  let c2 := c2 + (a2 + b2)
  let c1 := c2 / 65536
  let c2 := c2 % 65536
  let c1 := c1 + (a1 + b1)
  let c0 := c1 / 65536
  let c1 := c1 % 65536
  let c0 := (c0 + (a0 + b0)) % 65536
  (c0 <<< 16 ||| c1, c2 <<< 16 ||| c3)

/-- From `hash128x64.ts`, `multiply64`: schoolbook 64×64→64 multiplication on four
16-bit limbs, ten partial products, carries folded into the next-higher limb,
high limb truncated. -/
def multiply64 (a b : Nat × Nat) : Nat × Nat :=
  let a0 := a.1 / 65536
  let a1 := a.1 % 65536
  let a2 := a.2 / 65536
  let a3 := a.2 % 65536
  let b0 := b.1 / 65536
  let b1 := b.1 % 65536
  let b2 := b.2 / 65536
  let b3 := b.2 % 65536
  let c3 := a3 * b3
  let c2 := c3 / 65536
  let c3 := c3 % 65536
  let c2 := c2 + a2 * b3
  let c1 := c2 / 65536
  let c2 := c2 % 65536
  let c2 := c2 + a3 * b2
  let c1 := c1 + c2 / 65536
  let c2 := c2 % 65536
  let c1 := c1 + a1 * b3
  let c0 := c1 / 65536
  let c1 := c1 % 65536
  let c1 := c1 + a2 * b2
  let c0 := c0 + c1 / 65536
  let c1 := c1 % 65536
  let c1 := c1 + a3 * b1
  let c0 := c0 + c1 / 65536
  let c1 := c1 % 65536
  let c0 := (c0 + (a0 * b3 + a1 * b2 + a2 * b1 + a3 * b0)) % 65536
  (c0 <<< 16 ||| c1, c2 <<< 16 ||| c3)

/-- From `hash128x64.ts`, `rotl64`: `n` taken mod 64, three cases.  JavaScript
masks shift counts mod 32, hence the `% 32` on the `32 - n` counts in the
`n < 32` branch (it matters exactly at `n = 0`, where `x >>> 32` is
`x >>> 0 = x`). -/
def rotl64 (m : Nat × Nat) (n : Nat) : Nat × Nat :=
  let n := n % 64
  if n = 32 then
    (m.2, m.1)
  else if n < 32 then
    ((m.1 <<< n) % W32 ||| m.2 >>> ((32 - n) % 32),
     (m.2 <<< n) % W32 ||| m.1 >>> ((32 - n) % 32))
  else
    let n := n - 32
    ((m.2 <<< n) % W32 ||| m.1 >>> (32 - n),
     (m.1 <<< n) % W32 ||| m.2 >>> (32 - n))

/-- From `hash128x64.ts`, `lshift64`: left shift within 64 bits, `n` mod 64. -/
def lshift64 (m : Nat × Nat) (n : Nat) : Nat × Nat :=
  let n := n % 64
  if n = 0 then m
  else if n < 32 then
    ((m.1 <<< n) % W32 ||| m.2 >>> (32 - n), (m.2 <<< n) % W32)
  else
    ((m.2 <<< (n - 32)) % W32, 0)

/-- From `hash128x64.ts`, `xor64`: limb-wise XOR. -/
def xor64 (a b : Nat × Nat) : Nat × Nat := (a.1 ^^^ b.1, a.2 ^^^ b.2)

/-- From `hash128x64.ts`, `fmix64`; `[0, h[0] >>> 1]` is the 64-bit `h >>> 33`. -/
def fmix64 (h : Nat × Nat) : Nat × Nat :=
  let h := xor64 h (0, h.1 >>> 1)
  let h := multiply64 h (0xff51afd7, 0xed558ccd)
  let h := xor64 h (0, h.1 >>> 1)
  let h := multiply64 h (0xc4ceb9fe, 0x1a85ec53)
  xor64 h (0, h.1 >>> 1)

/-- One 16-byte block of `hash128x64.ts` `compute`, in source order. -/
def block128x64 (h1 h2 k1 k2 : Nat × Nat) : (Nat × Nat) × (Nat × Nat) :=
  let k1 := multiply64 k1 (0x87c37b91, 0x114253d5)
  let k1 := rotl64 k1 31
  let k1 := multiply64 k1 (0x4cf5ad43, 0x2745937f)
  let h1 := xor64 h1 k1
  let h1 := rotl64 h1 27
  let h1 := add64 h1 h2
  let h1 := add64 (multiply64 h1 (0, 5)) (0, 0x52dce729)
  let k2 := multiply64 k2 (0x4cf5ad43, 0x2745937f)
  let k2 := rotl64 k2 33
  let k2 := multiply64 k2 (0x87c37b91, 0x114253d5)
  let h2 := xor64 h2 k2
  let h2 := rotl64 h2 31
  let h2 := add64 h2 h1
  let h2 := add64 (multiply64 h2 (0, 5)) (0, 0x38495ab5)
  (h1, h2)

/-- The 16-byte block loop of `hash128x64.ts` `compute`; each 64-bit word is
`[hi = second 4 bytes, lo = first 4 bytes]`, little endian. -/
def h128x64loop (bytes : List Nat) :
    Nat → Nat → (Nat × Nat) × (Nat × Nat) → (Nat × Nat) × (Nat × Nat)
  | 0, _, h => h
  | n+1, off, (h1, h2) =>
    h128x64loop bytes n (off + 16)
      (block128x64 h1 h2
        (word32At bytes (off+4), word32At bytes off)
        (word32At bytes (off+12), word32At bytes (off+8)))

/-- The `switch (len & 15)` tail cascade of `hash128x64.ts` `compute`. -/
def h128x64tail (bytes : List Nat) (t rem : Nat) (h1 h2 : Nat × Nat) :
    (Nat × Nat) × (Nat × Nat) :=
  let k2 : Nat × Nat := (0, 0)
  let k2 := if 15 ≤ rem then xor64 k2 (lshift64 (0, byteAt bytes (t+14)) 48) else k2
  let k2 := if 14 ≤ rem then xor64 k2 (lshift64 (0, byteAt bytes (t+13)) 40) else k2
  let k2 := if 13 ≤ rem then xor64 k2 (lshift64 (0, byteAt bytes (t+12)) 32) else k2
  let k2 := if 12 ≤ rem then xor64 k2 (lshift64 (0, byteAt bytes (t+11)) 24) else k2
  let k2 := if 11 ≤ rem then xor64 k2 (lshift64 (0, byteAt bytes (t+10)) 16) else k2
  let k2 := if 10 ≤ rem then xor64 k2 (lshift64 (0, byteAt bytes (t+9)) 8) else k2
  let k2 := if 9 ≤ rem then xor64 k2 (0, byteAt bytes (t+8)) else k2
  let h2 := if 9 ≤ rem then
      xor64 h2 (multiply64 (rotl64 (multiply64 k2 (0x4cf5ad43, 0x2745937f)) 33)
        (0x87c37b91, 0x114253d5)) else h2
  let k1 : Nat × Nat := (0, 0)
  let k1 := if 8 ≤ rem then xor64 k1 (lshift64 (0, byteAt bytes (t+7)) 56) else k1
  let k1 := if 7 ≤ rem then xor64 k1 (lshift64 (0, byteAt bytes (t+6)) 48) else k1
  let k1 := if 6 ≤ rem then xor64 k1 (lshift64 (0, byteAt bytes (t+5)) 40) else k1
  let k1 := if 5 ≤ rem then xor64 k1 (lshift64 (0, byteAt bytes (t+4)) 32) else k1
  let k1 := if 4 ≤ rem then xor64 k1 (lshift64 (0, byteAt bytes (t+3)) 24) else k1
  let k1 := if 3 ≤ rem then xor64 k1 (lshift64 (0, byteAt bytes (t+2)) 16) else k1
  let k1 := if 2 ≤ rem then xor64 k1 (lshift64 (0, byteAt bytes (t+1)) 8) else k1
  let k1 := if 1 ≤ rem then xor64 k1 (0, byteAt bytes t) else k1
  let h1 := if 1 ≤ rem then
      xor64 h1 (multiply64 (rotl64 (multiply64 k1 (0x87c37b91, 0x114253d5)) 31)
        (0x4cf5ad43, 0x2745937f)) else h1
  (h1, h2)

/-- Finalization plus hex rendering of `hash128x64.ts` `compute`. -/
def h128x64finalize (len : Nat) (h1 h2 : Nat × Nat) : String :=
  let h1 := xor64 h1 (0, len % W32)
  let h2 := xor64 h2 (0, len % W32)
  let h1 := add64 h1 h2
  let h2 := add64 h2 h1
  let h1 := fmix64 h1
  let h2 := fmix64 h2
  let h1 := add64 h1 h2
  let h2 := add64 h2 h1
  String.mk (toHex8 (h1.1 % W32) ++ toHex8 (h1.2 % W32) ++
    toHex8 (h2.1 % W32) ++ toHex8 (h2.2 % W32))

/-- From `hash128x64.ts`, `compute`, on an already-coerced 32-bit seed; both lanes
start as `[0, seed]`. -/
def hash128x64computeHex (bytes : List Nat) (seed : Nat) : String :=
  let len := bytes.length
  let blocks := len / 16
  let h := h128x64loop bytes blocks 0 ((0, seed), (0, seed))
  let t := h128x64tail bytes (blocks * 16) (len % 16) h.1 h.2
  h128x64finalize len t.1 t.2

/-- Public `hash128x64(input, options?)`. -/
def hash128x64 (bytes : List Nat) (seedOpt : Option Int) (outOpt : Option HashOutput) :
    HashOut :=
  let seed := seedOpt.getD 0
  let hex := hash128x64computeHex bytes (toUint32 seed)
  match outOpt.getD HashOutput.hex with
  | HashOutput.bigint => HashOut.big (hexToBigInt hex)
  | HashOutput.hex => HashOut.hex hex

/-! ### Streaming wrappers

The streams buffer chunks and a running total length; `digest()` allocates a
zeroed `Uint8Array(totalLength)`, copies each chunk at its running offset
with `result.set(chunk, offset)`, and runs the one-shot engine.  `digest` is
modelled as returning both the produced value and the post-call stream state;
the method bodies contain no field writes, so the post-call state is the
input state. -/

/-- Array copy `dst.set(src, off)` on byte arrays: overwrite `dst` from position `off`
with the elements of `src` (the engines only call it in range; writes past
the end are dropped, a case never exercised because `totalLength` is the sum
of the chunk lengths). -/
def writeAt : List Nat → Nat → List Nat → List Nat
  | dst, _, [] => dst
  | [], _, _ => []
  | _ :: ds, 0, s :: ss => s :: writeAt ds 0 ss
  | d :: ds, o+1, src => d :: writeAt ds o src

/-- The `for (const chunk of this.chunks)` copy loop of the `digest`
methods. -/
def writeChunks : List Nat → Nat → List (List Nat) → List Nat
  | res, _, [] => res
  | res, off, c :: cs => writeChunks (writeAt res off c) (off + c.length) cs

/-- Concatenation as performed by `digest()`: a zeroed buffer of
`totalLength` bytes, with every chunk copied at its offset. -/
def digestBuffer (totalLength : Nat) (chunks : List (List Nat)) : List Nat :=
  writeChunks (List.replicate totalLength 0) 0 chunks

/-- State of `Hash32Stream`. -/
structure Hash32Stream where
  chunks : List (List Nat)
  totalLength : Nat
  seed : Int

/-- Constructor `createHash32(seed = 0)`. -/
def createHash32 (seed : Int) : Hash32Stream := Hash32Stream.mk [] 0 seed

/-- Method `Hash32Stream.update`: push the chunk, add its length. -/
def Hash32Stream.update (st : Hash32Stream) (bytes : List Nat) : Hash32Stream :=
  Hash32Stream.mk (st.chunks ++ [bytes]) (st.totalLength + bytes.length) st.seed

/-- Method `Hash32Stream.digest`: hash the copied-together buffer; no field is
written, so the stream state after the call is the state before it. -/
def Hash32Stream.digest (st : Hash32Stream) : Nat × Hash32Stream :=
  (hash32compute (digestBuffer st.totalLength st.chunks) (toUint32 st.seed), st)

/-- State of `Hash128Stream`. -/
structure Hash128Stream where
  chunks : List (List Nat)
  totalLength : Nat
  seed : Int
  outputFormat : HashOutput

/-- Constructor `createHash128(options?)`: seed defaults to 0, output to `'hex'`. -/
def createHash128 (seedOpt : Option Int) (outOpt : Option HashOutput) : Hash128Stream :=
  Hash128Stream.mk [] 0 (seedOpt.getD 0) (outOpt.getD HashOutput.hex)

/-- Method `Hash128Stream.update`. -/
def Hash128Stream.update (st : Hash128Stream) (bytes : List Nat) : Hash128Stream :=
  Hash128Stream.mk (st.chunks ++ [bytes]) (st.totalLength + bytes.length)
    st.seed st.outputFormat

/-- Method `Hash128Stream.digest`. -/
def Hash128Stream.digest (st : Hash128Stream) : HashOut × Hash128Stream :=
  let hex := hash128computeHex (digestBuffer st.totalLength st.chunks) (toUint32 st.seed)
  (match st.outputFormat with
   | HashOutput.bigint => HashOut.big (hexToBigInt hex)
   | HashOutput.hex => HashOut.hex hex, st)

/-- State of `Hash128x64Stream`. -/
structure Hash128x64Stream where
  chunks : List (List Nat)
  totalLength : Nat
  seed : Int
  outputFormat : HashOutput

/-- Constructor `createHash128x64(options?)`. -/
def createHash128x64 (seedOpt : Option Int) (outOpt : Option HashOutput) :
    Hash128x64Stream :=
  Hash128x64Stream.mk [] 0 (seedOpt.getD 0) (outOpt.getD HashOutput.hex)

/-- Method `Hash128x64Stream.update`. -/
def Hash128x64Stream.update (st : Hash128x64Stream) (bytes : List Nat) :
    Hash128x64Stream :=
  Hash128x64Stream.mk (st.chunks ++ [bytes]) (st.totalLength + bytes.length)
    st.seed st.outputFormat

/-- Method `Hash128x64Stream.digest`. -/
def Hash128x64Stream.digest (st : Hash128x64Stream) : HashOut × Hash128x64Stream :=
  let hex := hash128x64computeHex (digestBuffer st.totalLength st.chunks) (toUint32 st.seed)
  (match st.outputFormat with
   | HashOutput.bigint => HashOut.big (hexToBigInt hex)
   | HashOutput.hex => HashOut.hex hex, st)

/-- The UTF-8 bytes of `"0123456789abcdef"`, the 16-byte reference input. -/
def refBytes16 : List Nat := [48,49,50,51,52,53,54,55,56,57,97,98,99,100,101,102]
/-! ### Specification-side definitions (used to state the claims) -/

/-- The 64-bit value of a `[hi32, lo32]` limb pair. -/
def val64 (m : Nat × Nat) : Nat := m.1 * 4294967296 + m.2

/-- Left rotation of a 64-bit value `v < 2 ^ 64` by `n` (`0 ≤ n < 64`): the
top `n` bits wrap around to the bottom.  For `v < 2 ^ 64` the two summands
occupy disjoint bit ranges, so the sum is the usual shift-and-or rotation,
and `n = 0` gives back `v`. -/
def rot64ref (v n : Nat) : Nat := (v * 2 ^ n) % 2 ^ 64 + v / 2 ^ (64 - n)

/-- The per-block mixing of the x86 128-bit engine as claimed: every lane's
cross-lane addition `h_i += h_{i+1 mod 4}` reads the value the next lane had
on entry to the iteration (its pre-update value) — including lane 4, whose
addition would read the entry value of lane 1. -/
def block128allPre (h1 h2 h3 h4 k1 k2 k3 k4 : Nat) : Nat × Nat × Nat × Nat :=
  let e1 := h1
  let k1 := multiply k1 0x239b961b
  let k1 := rotl k1 15
  let k1 := multiply k1 0xab0e9789
  let h1 := h1 ^^^ k1
  let h1 := rotl h1 19
  let h1 := (h1 + h2) % W32
  let h1 := (multiply h1 5 + 0x561ccd1b) % W32
  let k2 := multiply k2 0xab0e9789
  let k2 := rotl k2 16
  let k2 := multiply k2 0x38b34ae5
  let h2 := h2 ^^^ k2
  let h2 := rotl h2 17
  let h2 := (h2 + h3) % W32
  let h2 := (multiply h2 5 + 0x0bcaa747) % W32
  let k3 := multiply k3 0x38b34ae5
  let k3 := rotl k3 17
  let k3 := multiply k3 0xa1e38b93
  let h3 := h3 ^^^ k3
  let h3 := rotl h3 15
  let h3 := (h3 + h4) % W32
  let h3 := (multiply h3 5 + 0x96cd1c35) % W32
  let k4 := multiply k4 0xa1e38b93
  let k4 := rotl k4 18
  let k4 := multiply k4 0x239b961b
  let h4 := h4 ^^^ k4
  let h4 := rotl h4 13
  let h4 := (h4 + e1) % W32
  let h4 := (multiply h4 5 + 0x32ac3b17) % W32
  (h1, h2, h3, h4)

/-- A lane update of the x86 128-bit block, written compositionally: mix the
block word `k` into the lane `h` (multiply by `c1`, rotate by `r`, multiply
by `c2`, XOR), rotate the lane by `s`, add the explicitly-passed
neighbouring lane `next`, and scale by 5 plus the additive constant `A`. -/
def lane128 (c1 r c2 s A h next k : Nat) : Nat :=
  let k := multiply k c1
  let k := rotl k r
  let k := multiply k c2
  let h := h ^^^ k
  let h := rotl h s
  let h := (h + next) % W32
  (multiply h 5 + A) % W32

/-- Sum of the lengths of a list of chunks. -/
def sumLens (cs : List (List Nat)) : Nat := cs.foldr (fun c n => c.length + n) 0

/-- Lowercase hexadecimal digit test: `0`-`9` or `a`-`f`. -/
def isLowerHexDigit (c : Char) : Bool :=
  (48 ≤ c.toNat && c.toNat ≤ 57) || (97 ≤ c.toNat && c.toNat ≤ 102)
/-! ### C1, C3 -/

/-- C1: the three engines reproduce the published reference vectors:
`hash32("") = 0`, `hash32("0123456789abcdef") = 919068895`,
`hash32("", seed=1) = 1364076727`, `hash128("")` and `hash128x64("")` are the
all-zero 32-digit hex string, `hash128("0123456789abcdef") =
"fb7d440936aed30a48ad1d9b572b3bfd"` and `hash128x64("0123456789abcdef") =
"4be06d94cf4ad1a787c35b5c63a708da"`, strings read as their UTF-8 bytes,
seed 0 unless noted. -/
theorem hash_reference_vectors :
    hash32 [] 0 = 0 ∧
    hash32 refBytes16 0 = 919068895 ∧
    hash32 [] 1 = 1364076727 ∧
    hash128 [] none none = HashOut.hex "00000000000000000000000000000000" ∧
    hash128 refBytes16 none none = HashOut.hex "fb7d440936aed30a48ad1d9b572b3bfd" ∧
    hash128x64 [] none none = HashOut.hex "00000000000000000000000000000000" ∧
    hash128x64 refBytes16 none none = HashOut.hex "4be06d94cf4ad1a787c35b5c63a708da" := by
  refine ⟨by decide, by decide, by decide, by decide, by decide, by decide, by decide⟩

/-- C3 counterexample: for the empty input with seed 0 the x86 and x64
128-bit engines produce the same digest (the all-zero hex string), so they do
not differ on every input/seed pair. -/
theorem hash128_variants_agree_on_empty :
    hash128 [] none none = hash128x64 [] none none := by decide

/-- C3 (amended): hash128 and hash128x64 are genuinely different digest
functions: on the 16-byte reference input `"0123456789abcdef"` with seed 0
they produce different digests — but not on every input, since both map the
empty input with seed 0 to the all-zero digest. -/
theorem hash128_variants_differ :
    hash128 refBytes16 none none ≠ hash128x64 refBytes16 none none := by decide

/-! ### C6: 32-bit multiply -/

/-- C6: the split-limb 32-bit multiply used by every engine computes exact
multiplication mod `2 ^ 32`: for all 32-bit values `a` and `b`,
`multiply a b = (a * b) % 2 ^ 32` (and, being a total function, it never
fails). -/
theorem multiply_exact (a b : Nat) (ha : a < 2 ^ 32) (hb : b < 2 ^ 32) :
    multiply a b = (a * b) % 2 ^ 32 := by
  unfold multiply W32
  have h1 : a * b = (a % 65536) * b + ((a / 65536) * b) * 65536 := by
    conv_lhs => rw [← Nat.div_add_mod a 65536]
    ring
  rw [h1]
  generalize (a % 65536) * b = v
  generalize (a / 65536) * b = u
  omega

/-- Witness for C6 at a concrete input. -/
theorem multiply_exact_witness :
    multiply 0xdeadbeef 0xcafebabe = (0xdeadbeef * 0xcafebabe) % 2 ^ 32 :=
  multiply_exact 0xdeadbeef 0xcafebabe (by decide) (by decide)

/-! ### C4: cross-lane reads in the x86 128-bit block -/

/-- C4 counterexample: the block mixing of the code is not the claimed
"every cross-lane addition reads the pre-update next lane": on the all-zero
state and all-zero block, the code's block step (where `h4 += h1` reads the
updated lane 1) differs from the claimed all-pre-update step. -/
theorem block128_not_all_preupdate :
    block128 0 0 0 0 0 0 0 0 ≠ block128allPre 0 0 0 0 0 0 0 0 := by decide

/-- C4 (amended): in every full-block iteration, lanes 1, 2 and 3 read the
pre-update (iteration-entry) value of their next lane (`h1 += h2`,
`h2 += h3`, `h3 += h4`), while lane 4's addition `h4 += h1` reads lane 1's
value as already updated earlier in the same iteration. -/
theorem block128_cross_lane_reads (h1 h2 h3 h4 k1 k2 k3 k4 : Nat) :
    block128 h1 h2 h3 h4 k1 k2 k3 k4 =
      (lane128 0x239b961b 15 0xab0e9789 19 0x561ccd1b h1 h2 k1,
       lane128 0xab0e9789 16 0x38b34ae5 17 0x0bcaa747 h2 h3 k2,
       lane128 0x38b34ae5 17 0xa1e38b93 15 0x96cd1c35 h3 h4 k3,
       lane128 0xa1e38b93 18 0x239b961b 13 0x32ac3b17 h4
         (lane128 0x239b961b 15 0xab0e9789 19 0x561ccd1b h1 h2 k1) k4) := rfl

/-! ### C5: 64-bit multiply -/

/-- A 16-bit shift-and-or reassembly is plain arithmetic when the low half
is in range: `x <<< 16 ||| y = x * 65536 + y` for `y < 65536`. -/
theorem shiftLeft16_lor (x y : Nat) (hy : y < 65536) :
    x <<< 16 ||| y = x * 65536 + y := by
  have h : (2:Nat) ^ 16 * x + y = 2 ^ 16 * x ||| y :=
    Nat.mul_add_lt_is_or (show y < 2 ^ 16 by omega) x
  rw [Nat.shiftLeft_eq, Nat.mul_comm x, ← h, Nat.mul_comm]

/-- C5: `multiply64` is exact multiplication over the 64-bit ring: for all
64-bit operands given as `[hi32, lo32]` limb pairs with 32-bit limbs, the
value of the result is the product of the values mod `2 ^ 64`. -/
theorem multiply64_exact (ah al bh bl : Nat)
    (hah : ah < 2 ^ 32) (hal : al < 2 ^ 32) (hbh : bh < 2 ^ 32) (hbl : bl < 2 ^ 32) :
    val64 (multiply64 (ah, al) (bh, bl)) =
      (val64 (ah, al) * val64 (bh, bl)) % 2 ^ 64 := by
  simp only [multiply64, val64]
  rw [shiftLeft16_lor _ _ (Nat.mod_lt _ (by norm_num)),
      shiftLeft16_lor _ _ (Nat.mod_lt _ (by norm_num))]
  set a0 := ah / 65536 with ha0
  set a1 := ah % 65536 with ha1
  set a2 := al / 65536 with ha2
  set a3 := al % 65536 with ha3
  set b0 := bh / 65536 with hb0
  set b1 := bh % 65536 with hb1
  set b2 := bl / 65536 with hb2
  set b3 := bl % 65536 with hb3
  have hA : ah = 65536 * a0 + a1 := by
    rw [ha0, ha1]; exact (Nat.div_add_mod ah 65536).symm
  have hAl : al = 65536 * a2 + a3 := by
    rw [ha2, ha3]; exact (Nat.div_add_mod al 65536).symm
  have hB : bh = 65536 * b0 + b1 := by
    rw [hb0, hb1]; exact (Nat.div_add_mod bh 65536).symm
  have hBl : bl = 65536 * b2 + b3 := by
    rw [hb2, hb3]; exact (Nat.div_add_mod bl 65536).symm
  rw [hA, hAl, hB, hBl]
  have hexp :
      ((65536 * a0 + a1) * 4294967296 + (65536 * a2 + a3)) *
        ((65536 * b0 + b1) * 4294967296 + (65536 * b2 + b3)) =
      a0 * b0 * 2 ^ 96 + (a0 * b1 + a1 * b0) * 2 ^ 80 +
        (a0 * b2 + a1 * b1 + a2 * b0) * 2 ^ 64 +
        (a0 * b3 + a1 * b2 + a2 * b1 + a3 * b0) * 2 ^ 48 +
        (a1 * b3 + a2 * b2 + a3 * b1) * 2 ^ 32 +
        (a2 * b3 + a3 * b2) * 2 ^ 16 + a3 * b3 := by ring
  rw [hexp]
  generalize a0 * b0 = p00
  generalize a0 * b1 = p01
  generalize a0 * b2 = p02
  generalize a0 * b3 = p03
  generalize a1 * b0 = p10
  generalize a1 * b1 = p11
  generalize a1 * b2 = p12
  generalize a1 * b3 = p13
  generalize a2 * b0 = p20
  generalize a2 * b1 = p21
  generalize a2 * b2 = p22
  generalize a2 * b3 = p23
  generalize a3 * b0 = p30
  generalize a3 * b1 = p31
  generalize a3 * b2 = p32
  generalize a3 * b3 = p33
  omega

/-- Witness for C5 at a concrete input. -/
theorem multiply64_exact_witness :
    val64 (multiply64 (0x87c37b91, 0x114253d5) (0x4cf5ad43, 0x2745937f)) =
      (val64 (0x87c37b91, 0x114253d5) * val64 (0x4cf5ad43, 0x2745937f)) % 2 ^ 64 :=
  multiply64_exact _ _ _ _ (by decide) (by decide) (by decide) (by decide)

/-! ### C7: 64-bit rotate -/

/-- Shift-and-or with a small right half is plain arithmetic:
`a * 2 ^ i ||| b = a * 2 ^ i + b` for `b < 2 ^ i`. -/
theorem lor_small (i a b : Nat) (hb : b < 2 ^ i) : a * 2 ^ i ||| b = a * 2 ^ i + b := by
  rw [Nat.mul_comm]
  exact (Nat.mul_add_lt_is_or hb a).symm

/-- Multiplying the two-limb value `m0 * (Q*P) + m1` by `P` and reducing mod
`(Q*P)^2` keeps the low `P`-fraction of `m0` on top, pushes `m1`'s high part
into the middle and its low part to the bottom. -/
theorem limb_mul_mod (Q P m0 m1 : Nat) (hQpos : 0 < Q) (hPpos : 0 < P)
    (h0 : m0 < Q * P) (h1 : m1 < Q * P) :
    (m0 * (Q * P) + m1) * P % (Q * P * (Q * P))
      = m0 % Q * P * (Q * P) + m1 / Q * (Q * P) + m1 % Q * P := by
  set d0 := m0 / Q with hdd0
  set r0 := m0 % Q with hrr0
  set d1 := m1 / Q with hdd1
  set r1 := m1 % Q with hrr1
  have hm0 : m0 = Q * d0 + r0 := (Nat.div_add_mod m0 Q).symm
  have hm1 : m1 = Q * d1 + r1 := (Nat.div_add_mod m1 Q).symm
  have hr0Q : r0 < Q := by rw [hrr0]; exact Nat.mod_lt _ hQpos
  have hr1Q : r1 < Q := by rw [hrr1]; exact Nat.mod_lt _ hQpos
  have hd1P : d1 < P := by
    rw [hdd1, Nat.div_lt_iff_lt_mul hQpos, Nat.mul_comm P Q]
    exact h1
  clear_value d0 r0 d1 r1
  have e2 : (m0 * (Q * P) + m1) * P
      = d0 * (Q * P * (Q * P)) + (r0 * P * (Q * P) + d1 * (Q * P) + r1 * P) := by
    conv_lhs => rw [hm0, hm1]
    ring
  have f1 : r0 * P * (Q * P) + P * (Q * P) ≤ Q * P * (Q * P) := by
    calc r0 * P * (Q * P) + P * (Q * P) = ((r0 + 1) * P) * (Q * P) := by ring
      _ ≤ (Q * P) * (Q * P) :=
          Nat.mul_le_mul_right _ (Nat.mul_le_mul_right _ (by omega))
  have f2 : d1 * (Q * P) + Q * P ≤ P * (Q * P) := by
    calc d1 * (Q * P) + Q * P = (d1 + 1) * (Q * P) := by ring
      _ ≤ P * (Q * P) := Nat.mul_le_mul_right _ (by omega)
  have f3 : r1 * P + P ≤ Q * P := by
    calc r1 * P + P = (r1 + 1) * P := by ring
      _ ≤ Q * P := Nat.mul_le_mul_right _ (by omega)
  have hX : r0 * P * (Q * P) + d1 * (Q * P) + r1 * P < Q * P * (Q * P) := by
    linarith [f1, f2, f3, hPpos]
  rw [e2, Nat.add_comm, Nat.add_mul_mod_self_right]
  exact Nat.mod_eq_of_lt hX

/-- Dividing the two-limb value by `Q * (Q*P)` recovers the high
`P`-fraction of `m0`. -/
theorem limb_div_high (Q P m0 m1 : Nat) (hQpos : 0 < Q) (hPpos : 0 < P)
    (h0 : m0 < Q * P) (h1 : m1 < Q * P) :
    (m0 * (Q * P) + m1) / (Q * (Q * P)) = m0 / Q := by
  have hm0 : m0 = Q * (m0 / Q) + m0 % Q := (Nat.div_add_mod m0 Q).symm
  have e3 : m0 * (Q * P) + m1
      = Q * (Q * P) * (m0 / Q) + (m0 % Q * (Q * P) + m1) := by
    conv_lhs => rw [hm0]
    ring
  have hY : m0 % Q * (Q * P) + m1 < Q * (Q * P) := by
    have g1 : (m0 % Q + 1) * (Q * P) ≤ Q * (Q * P) :=
      Nat.mul_le_mul_right _ (Nat.succ_le_of_lt (Nat.mod_lt _ hQpos))
    have g3 : (m0 % Q + 1) * (Q * P) = m0 % Q * (Q * P) + Q * P := by ring
    linarith [g1, g3, h1]
  rw [e3, Nat.mul_add_div (Nat.mul_pos hQpos (Nat.mul_pos hQpos hPpos)),
    Nat.div_eq_of_lt hY]
  omega

/-- Dividing the two-limb value by `Q` alone shifts `m0` up by `P` and keeps
`m1`'s high part. -/
theorem limb_div_low (Q P m0 m1 : Nat) (hQpos : 0 < Q) :
    (m0 * (Q * P) + m1) / Q = m0 * P + m1 / Q := by
  have e : m0 * (Q * P) + m1 = Q * (m0 * P) + m1 := by ring
  rw [e, Nat.mul_add_div hQpos]

/-- Multiplying the two-limb value by `P * (Q*P)` and reducing mod `(Q*P)^2`
keeps only the low `P`-fraction of `m1`, at the top. -/
theorem limb_mul_mod_high (Q P m0 m1 : Nat) (hQpos : 0 < Q) (hPpos : 0 < P) :
    (m0 * (Q * P) + m1) * (P * (Q * P)) % (Q * P * (Q * P))
      = m1 % Q * P * (Q * P) := by
  set d1 := m1 / Q with hdd1
  set r1 := m1 % Q with hrr1
  have hm1 : m1 = Q * d1 + r1 := (Nat.div_add_mod m1 Q).symm
  have hr1Q : r1 < Q := by rw [hrr1]; exact Nat.mod_lt _ hQpos
  clear_value d1 r1
  have e : (m0 * (Q * P) + m1) * (P * (Q * P))
      = (m0 * P + d1) * (Q * P * (Q * P)) + r1 * P * (Q * P) := by
    conv_lhs => rw [hm1]
    ring
  have hlt : r1 * P * (Q * P) < Q * P * (Q * P) := by
    have g : ((r1 + 1) * P) * (Q * P) ≤ (Q * P) * (Q * P) :=
      Nat.mul_le_mul_right _ (Nat.mul_le_mul_right _ (by omega))
    have g2 : ((r1 + 1) * P) * (Q * P) = r1 * P * (Q * P) + P * (Q * P) := by ring
    have g3 : 0 < P * (Q * P) := Nat.mul_pos hPpos (Nat.mul_pos hQpos hPpos)
    linarith [g, g2, g3]
  rw [e, Nat.add_comm, Nat.add_mul_mod_self_right]
  exact Nat.mod_eq_of_lt hlt

/-- The cross-limb shift-and-or of `rotl64`'s `n < 32` branch computes the
64-bit rotation, for rotate amounts `1 ≤ n < 32`. -/
theorem rotlHalf_val (m0 m1 n : Nat) (h0 : m0 < 4294967296) (h1 : m1 < 4294967296)
    (hn1 : 1 ≤ n) (hn : n < 32) :
    ((m0 <<< n) % 4294967296 ||| m1 >>> (32 - n)) * 4294967296 +
      ((m1 <<< n) % 4294967296 ||| m0 >>> (32 - n)) =
      rot64ref (m0 * 4294967296 + m1) n := by
  simp only [rot64ref, Nat.shiftLeft_eq, Nat.shiftRight_eq_div_pow]
  set P := 2 ^ n with hP
  set Q := 2 ^ (32 - n) with hQ
  have hPpos : 0 < P := by rw [hP]; exact Nat.two_pow_pos n
  have hQpos : 0 < Q := by rw [hQ]; exact Nat.two_pow_pos _
  have hqp : Q * P = 4294967296 := by
    rw [hQ, hP, ← pow_add]
    have h32 : 32 - n + n = 32 := by omega
    rw [h32]
    norm_num
  have hq64 : 2 ^ (64 - n) = Q * 4294967296 := by
    have hW : (4294967296 : Nat) = 2 ^ 32 := by norm_num
    have e : 64 - n = 32 - n + 32 := by omega
    rw [hW, hQ, ← pow_add, e]
  have h64 : (2 : Nat) ^ 64 = Q * P * (Q * P) := by rw [hqp]; norm_num
  rw [hq64, h64, ← hqp]
  rw [Nat.mul_mod_mul_right, Nat.mul_mod_mul_right]
  have hb1 : m1 / Q < P := by
    rw [Nat.div_lt_iff_lt_mul hQpos, Nat.mul_comm P Q, hqp]
    exact h1
  have hb0 : m0 / Q < P := by
    rw [Nat.div_lt_iff_lt_mul hQpos, Nat.mul_comm P Q, hqp]
    exact h0
  rw [lor_small n _ _ hb1, lor_small n _ _ hb0]
  have hm0lt : m0 < Q * P := by rw [hqp]; exact h0
  have hm1lt : m1 < Q * P := by rw [hqp]; exact h1
  rw [← hP, limb_mul_mod Q P m0 m1 hQpos hPpos hm0lt hm1lt,
    limb_div_high Q P m0 m1 hQpos hPpos hm0lt hm1lt]
  ring

/-- Swapping the limbs and rotating by `k` is rotating the original value by
`k + 32`, for `1 ≤ k < 32`. -/
theorem rot64ref_swap (hi lo k : Nat) (hhi : hi < 4294967296) (hlo : lo < 4294967296)
    (hk1 : 1 ≤ k) (hk : k < 32) :
    rot64ref (lo * 4294967296 + hi) k = rot64ref (hi * 4294967296 + lo) (k + 32) := by
  simp only [rot64ref]
  set P := 2 ^ k with hP
  set Q := 2 ^ (32 - k) with hQ
  have hPpos : 0 < P := by rw [hP]; exact Nat.two_pow_pos k
  have hQpos : 0 < Q := by rw [hQ]; exact Nat.two_pow_pos _
  have hqp : Q * P = 4294967296 := by
    rw [hQ, hP, ← pow_add]
    have h32 : 32 - k + k = 32 := by omega
    rw [h32]
    norm_num
  have hq64 : 2 ^ (64 - k) = Q * 4294967296 := by
    have hW : (4294967296 : Nat) = 2 ^ 32 := by norm_num
    have e : 64 - k = 32 - k + 32 := by omega
    rw [hW, hQ, ← pow_add, e]
  have hpw : 2 ^ (k + 32) = P * 4294967296 := by
    rw [pow_add, hP]
    norm_num
  have h32k : 2 ^ (64 - (k + 32)) = Q := by
    have e : 64 - (k + 32) = 32 - k := by omega
    rw [e, hQ]
  have h64 : (2 : Nat) ^ 64 = Q * P * (Q * P) := by rw [hqp]; norm_num
  rw [hq64, hpw, h32k, h64, ← hqp]
  have hhilt : hi < Q * P := by rw [hqp]; exact hhi
  have hlolt : lo < Q * P := by rw [hqp]; exact hlo
  rw [limb_mul_mod Q P lo hi hQpos hPpos hlolt hhilt,
    limb_div_high Q P lo hi hQpos hPpos hlolt hhilt,
    limb_mul_mod_high Q P hi lo hQpos hPpos,
    limb_div_low Q P hi lo hQpos]
  have hm0 : hi = Q * (hi / Q) + hi % Q := (Nat.div_add_mod hi Q).symm
  have hhiP : hi * P = hi / Q * (Q * P) + hi % Q * P := by
    conv_lhs => rw [hm0]
    ring
  rw [hhiP]
  ring

/-- C7 counterexample: the claim includes `n = 0`, but there `rotl64` does
not compute the rotation by `0 mod 64` (the identity): JavaScript masks
shift counts mod 32, so the branch computes `m0 | m1` in both limbs; on
`[0, 1]` the code yields the 64-bit value `2 ^ 32 + 1`, not `1`. -/
theorem rotl64_wrong_at_zero :
    val64 (rotl64 (0, 1) 0) ≠ rot64ref (val64 (0, 1)) (0 % 64) := by decide

/-- C7 (amended): for every `[hi32, lo32]` limb pair and every rotate amount
`n` with `1 ≤ n < 64`, `rotl64` computes the left rotation by `n` within 64
bits, through its three cases (`n = 32` swaps the limbs, `n < 32` does the
cross-limb shift-and-or, `n > 32` reduces to `n - 32` with the limb roles
swapped).  At `n = 0` the code does not return the identity rotation. -/
theorem rotl64_rotates (hi lo n : Nat) (hhi : hi < 2 ^ 32) (hlo : lo < 2 ^ 32)
    (hn1 : 1 ≤ n) (hn : n < 64) :
    val64 (rotl64 (hi, lo) n) = rot64ref (val64 (hi, lo)) n := by
  have hhi' : hi < 4294967296 := by omega
  have hlo' : lo < 4294967296 := by omega
  simp only [rotl64, val64, W32]
  rw [Nat.mod_eq_of_lt hn]
  rcases Nat.lt_trichotomy n 32 with hlt | heq | hgt
  · rw [if_neg (by omega : ¬ n = 32), if_pos hlt]
    dsimp only
    have hmask : (32 - n) % 32 = 32 - n := Nat.mod_eq_of_lt (by omega)
    rw [hmask]
    exact rotlHalf_val hi lo n hhi' hlo' hn1 hlt
  · subst heq
    rw [if_pos rfl]
    dsimp only
    simp only [rot64ref]
    omega
  · rw [if_neg (by omega : ¬ n = 32), if_neg (by omega : ¬ n < 32)]
    dsimp only
    rw [rotlHalf_val lo hi (n - 32) hlo' hhi' (by omega) (by omega),
      rot64ref_swap hi lo (n - 32) hhi' hlo' (by omega) (by omega)]
    have e : n - 32 + 32 = n := by omega
    rw [e]

/-- Witness for the amended C7 at a concrete input, once in each rotating
branch (`n = 27` and `n = 33`, the engine's own amounts). -/
theorem rotl64_rotates_witness :
    val64 (rotl64 (0x87c37b91, 0x114253d5) 27)
        = rot64ref (val64 (0x87c37b91, 0x114253d5)) 27 ∧
      val64 (rotl64 (0x87c37b91, 0x114253d5) 33)
        = rot64ref (val64 (0x87c37b91, 0x114253d5)) 33 :=
  ⟨rotl64_rotates _ _ 27 (by decide) (by decide) (by decide) (by decide),
   rotl64_rotates _ _ 33 (by decide) (by decide) (by decide) (by decide)⟩

/-! ### C8: seed truncation -/

/-- C8: every engine truncates the seed to its low 32 bits: hashing with any
integer seed `s` — negative or past `2 ^ 32 - 1` included — equals hashing
with `s % 2 ^ 32`, and the computation is total.  (In the JavaScript source
the truncation happens because the seed is only ever consumed by 32-bit
coercing operators.) -/
theorem seed_truncated_mod_2_32 (bytes : List Nat) (s : Int)
    (outOpt : Option HashOutput) :
    hash32 bytes s = hash32 bytes (s % 2 ^ 32) ∧
    hash128 bytes (some s) outOpt = hash128 bytes (some (s % 2 ^ 32)) outOpt ∧
    hash128x64 bytes (some s) outOpt = hash128x64 bytes (some (s % 2 ^ 32)) outOpt := by
  have key : toUint32 s = toUint32 (s % 2 ^ 32) := by
    unfold toUint32
    have h32 : (2 : Int) ^ 32 = 4294967296 := by norm_num
    rw [h32, Int.emod_emod_of_dvd _ dvd_rfl]
  refine ⟨?_, ?_, ?_⟩
  · unfold hash32
    rw [key]
  · unfold hash128
    simp only [Option.getD_some, key]
  · unfold hash128x64
    simp only [Option.getD_some, key]

/-! ### C9: output shape -/

/-- Each hex digit the formatter emits is a lowercase hexadecimal
character. -/
theorem isLowerHexDigit_hexChar_mod (x : Nat) :
    isLowerHexDigit (hexChar (x % 16)) = true := by
  have h : x % 16 < 16 := Nat.mod_lt _ (by norm_num)
  generalize x % 16 = n at h
  interval_cases n <;> decide

/-- The hex rendering of the x86 128-bit finalizer is 32 characters, all
lowercase hex. -/
theorem h128finalize_shape (len h1 h2 h3 h4 : Nat) :
    (h128finalize len h1 h2 h3 h4).length = 32 ∧
      ((h128finalize len h1 h2 h3 h4).data.all isLowerHexDigit) = true := by
  unfold h128finalize
  constructor
  · simp [String.length, toHex8]
  · simp [toHex8, isLowerHexDigit_hexChar_mod]

/-- The hex rendering of the x64 128-bit finalizer is 32 characters, all
lowercase hex. -/
theorem h128x64finalize_shape (len : Nat) (h1 h2 : Nat × Nat) :
    (h128x64finalize len h1 h2).length = 32 ∧
      ((h128x64finalize len h1 h2).data.all isLowerHexDigit) = true := by
  unfold h128x64finalize
  constructor
  · simp [String.length, toHex8]
  · simp [toHex8, isLowerHexDigit_hexChar_mod]

/-- C9: output shape.  `hash32` always returns a value in `[0, 2 ^ 32 - 1]`;
the 128-bit engines in hex mode return exactly the 32-character lowercase
hex string assembled from the four zero-padded 8-digit lanes, and in bigint
mode exactly the base-16 parse of that same hex string. -/
theorem output_shape (bytes : List Nat) (s : Int) (seedOpt : Option Int) :
    hash32 bytes s < 2 ^ 32 ∧
    hash128 bytes seedOpt (some HashOutput.hex)
        = HashOut.hex (hash128computeHex bytes (toUint32 (seedOpt.getD 0))) ∧
    (hash128computeHex bytes (toUint32 (seedOpt.getD 0))).length = 32 ∧
    ((hash128computeHex bytes (toUint32 (seedOpt.getD 0))).data.all isLowerHexDigit)
        = true ∧
    hash128 bytes seedOpt (some HashOutput.bigint)
        = HashOut.big (hexToBigInt (hash128computeHex bytes (toUint32 (seedOpt.getD 0)))) ∧
    hash128x64 bytes seedOpt (some HashOutput.hex)
        = HashOut.hex (hash128x64computeHex bytes (toUint32 (seedOpt.getD 0))) ∧
    (hash128x64computeHex bytes (toUint32 (seedOpt.getD 0))).length = 32 ∧
    ((hash128x64computeHex bytes (toUint32 (seedOpt.getD 0))).data.all isLowerHexDigit)
        = true ∧
    hash128x64 bytes seedOpt (some HashOutput.bigint)
        = HashOut.big (hexToBigInt (hash128x64computeHex bytes (toUint32 (seedOpt.getD 0)))) := by
  have hx86 : (hash128computeHex bytes (toUint32 (seedOpt.getD 0))).length = 32 ∧
      ((hash128computeHex bytes (toUint32 (seedOpt.getD 0))).data.all isLowerHexDigit)
        = true := by
    unfold hash128computeHex
    exact h128finalize_shape _ _ _ _ _
  have hx64 : (hash128x64computeHex bytes (toUint32 (seedOpt.getD 0))).length = 32 ∧
      ((hash128x64computeHex bytes (toUint32 (seedOpt.getD 0))).data.all isLowerHexDigit)
        = true := by
    unfold hash128x64computeHex
    exact h128x64finalize_shape _ _ _
  refine ⟨?_, rfl, hx86.1, hx86.2, rfl, rfl, hx64.1, hx64.2, rfl⟩
  simp only [hash32, hash32compute, W32]
  omega

/-! ### C2 and C10: streaming -/

/-- Writing at offset `pre.length` into `pre ++ rest` leaves `pre` alone and
writes at the start of `rest`. -/
theorem writeAt_append (pre rest c : List Nat) :
    writeAt (pre ++ rest) pre.length c = pre ++ writeAt rest 0 c := by
  induction pre with
  | nil => simp
  | cons p ps ih =>
    cases c with
    | nil => simp [writeAt]
    | cons s ss => simpa [writeAt] using ih

/-- Writing a chunk over a destination segment of exactly its length yields
the chunk followed by the untouched tail. -/
theorem writeAt_exact (c : List Nat) : ∀ (dst tail : List Nat),
    dst.length = c.length → writeAt (dst ++ tail) 0 c = c ++ tail := by
  induction c with
  | nil =>
    intro dst tail h
    have hd : dst = [] := List.eq_nil_of_length_eq_zero (by simpa using h)
    subst hd
    simp [writeAt]
  | cons s ss ih =>
    intro dst tail h
    cases dst with
    | nil => simp at h
    | cons d ds =>
      simp only [List.cons_append, writeAt, List.length_cons] at h ⊢
      exact congrArg (s :: ·) (ih ds tail (by omega))

/-- Copying the chunks one after another into a zero buffer of total length
produces the concatenation of the chunks. -/
theorem writeChunks_concat (cs : List (List Nat)) : ∀ (pre : List Nat),
    writeChunks (pre ++ List.replicate (sumLens cs) 0) pre.length cs
      = pre ++ cs.flatten := by
  induction cs with
  | nil => intro pre; simp [writeChunks, sumLens]
  | cons c cs ih =>
    intro pre
    have hsum : sumLens (c :: cs) = c.length + sumLens cs := rfl
    rw [hsum, List.replicate_add, writeChunks]
    rw [writeAt_append,
      writeAt_exact c (List.replicate c.length 0) (List.replicate (sumLens cs) 0)
        (List.length_replicate _ _)]
    have hlen : pre.length + c.length = (pre ++ c).length := by simp
    rw [← List.append_assoc pre, hlen, ih (pre ++ c)]
    simp

/-- The buffer `digest()` assembles is the concatenation of the buffered
chunks, provided the recorded total length is their total length. -/
theorem digestBuffer_join (cs : List (List Nat)) :
    digestBuffer (sumLens cs) cs = cs.flatten := by
  have h := writeChunks_concat cs []
  simpa [digestBuffer] using h

/-- A fresh `Hash32Stream` after a sequence of updates holds exactly those
chunks, their total length, and the construction seed. -/
theorem hash32stream_foldl (cs : List (List Nat)) : ∀ (st : Hash32Stream),
    (List.foldl Hash32Stream.update st cs).chunks = st.chunks ++ cs ∧
    (List.foldl Hash32Stream.update st cs).totalLength = st.totalLength + sumLens cs ∧
    (List.foldl Hash32Stream.update st cs).seed = st.seed := by
  induction cs with
  | nil => intro st; simp [sumLens]
  | cons c cs ih =>
    intro st
    obtain ⟨h1, h2, h3⟩ := ih (st.update c)
    refine ⟨?_, ?_, ?_⟩
    · rw [List.foldl_cons, h1]; simp [Hash32Stream.update]
    · rw [List.foldl_cons, h2]
      simp only [Hash32Stream.update, sumLens, List.foldr]
      omega
    · rw [List.foldl_cons, h3]
      rfl

/-- Same characterization for `Hash128Stream`. -/
theorem hash128stream_foldl (cs : List (List Nat)) : ∀ (st : Hash128Stream),
    (List.foldl Hash128Stream.update st cs).chunks = st.chunks ++ cs ∧
    (List.foldl Hash128Stream.update st cs).totalLength = st.totalLength + sumLens cs ∧
    (List.foldl Hash128Stream.update st cs).seed = st.seed ∧
    (List.foldl Hash128Stream.update st cs).outputFormat = st.outputFormat := by
  induction cs with
  | nil => intro st; simp [sumLens]
  | cons c cs ih =>
    intro st
    obtain ⟨h1, h2, h3, h4⟩ := ih (st.update c)
    refine ⟨?_, ?_, ?_, ?_⟩
    · rw [List.foldl_cons, h1]; simp [Hash128Stream.update]
    · rw [List.foldl_cons, h2]
      simp only [Hash128Stream.update, sumLens, List.foldr]
      omega
    · rw [List.foldl_cons, h3]
      rfl
    · rw [List.foldl_cons, h4]
      rfl

/-- Same characterization for `Hash128x64Stream`. -/
theorem hash128x64stream_foldl (cs : List (List Nat)) : ∀ (st : Hash128x64Stream),
    (List.foldl Hash128x64Stream.update st cs).chunks = st.chunks ++ cs ∧
    (List.foldl Hash128x64Stream.update st cs).totalLength
      = st.totalLength + sumLens cs ∧
    (List.foldl Hash128x64Stream.update st cs).seed = st.seed ∧
    (List.foldl Hash128x64Stream.update st cs).outputFormat = st.outputFormat := by
  induction cs with
  | nil => intro st; simp [sumLens]
  | cons c cs ih =>
    intro st
    obtain ⟨h1, h2, h3, h4⟩ := ih (st.update c)
    refine ⟨?_, ?_, ?_, ?_⟩
    · rw [List.foldl_cons, h1]; simp [Hash128x64Stream.update]
    · rw [List.foldl_cons, h2]
      simp only [Hash128x64Stream.update, sumLens, List.foldr]
      omega
    · rw [List.foldl_cons, h3]
      rfl
    · rw [List.foldl_cons, h4]
      rfl

/-- Stream/one-shot agreement for the 32-bit engine. -/
theorem hash32stream_oneshot (s : Int) (cs : List (List Nat)) :
    (Hash32Stream.digest (List.foldl Hash32Stream.update (createHash32 s) cs)).1
      = hash32 cs.flatten s := by
  obtain ⟨h1, h2, h3⟩ := hash32stream_foldl cs (createHash32 s)
  unfold Hash32Stream.digest hash32
  rw [h1, h2, h3]
  simp only [createHash32]
  rw [show (0 : Nat) + sumLens cs = sumLens cs from by omega]
  rw [show ([] : List (List Nat)) ++ cs = cs from by simp]
  rw [digestBuffer_join]

/-- Stream/one-shot agreement for the x86 128-bit engine. -/
theorem hash128stream_oneshot (seedOpt : Option Int) (outOpt : Option HashOutput)
    (cs : List (List Nat)) :
    (Hash128Stream.digest
        (List.foldl Hash128Stream.update (createHash128 seedOpt outOpt) cs)).1
      = hash128 cs.flatten seedOpt outOpt := by
  obtain ⟨h1, h2, h3, h4⟩ := hash128stream_foldl cs (createHash128 seedOpt outOpt)
  unfold Hash128Stream.digest hash128
  rw [h1, h2, h3, h4]
  simp only [createHash128]
  rw [show (0 : Nat) + sumLens cs = sumLens cs from by omega]
  rw [show ([] : List (List Nat)) ++ cs = cs from by simp]
  rw [digestBuffer_join]

/-- Stream/one-shot agreement for the x64 128-bit engine. -/
theorem hash128x64stream_oneshot (seedOpt : Option Int) (outOpt : Option HashOutput)
    (cs : List (List Nat)) :
    (Hash128x64Stream.digest
        (List.foldl Hash128x64Stream.update (createHash128x64 seedOpt outOpt) cs)).1
      = hash128x64 cs.flatten seedOpt outOpt := by
  obtain ⟨h1, h2, h3, h4⟩ := hash128x64stream_foldl cs (createHash128x64 seedOpt outOpt)
  unfold Hash128x64Stream.digest hash128x64
  rw [h1, h2, h3, h4]
  simp only [createHash128x64]
  rw [show (0 : Nat) + sumLens cs = sumLens cs from by omega]
  rw [show ([] : List (List Nat)) ++ cs = cs from by simp]
  rw [digestBuffer_join]

/-- C2: streaming equivalence.  For every engine, every seed and output
format, and every finite sequence of chunks, updating a fresh stream with
the chunks in order and calling `digest()` returns exactly the one-shot
hash of the concatenation of the chunks, with the same seed and format. -/
theorem streaming_equivalence (cs : List (List Nat)) (s : Int)
    (seedOpt : Option Int) (outOpt : Option HashOutput) :
    (Hash32Stream.digest (List.foldl Hash32Stream.update (createHash32 s) cs)).1
        = hash32 cs.flatten s ∧
    (Hash128Stream.digest
        (List.foldl Hash128Stream.update (createHash128 seedOpt outOpt) cs)).1
        = hash128 cs.flatten seedOpt outOpt ∧
    (Hash128x64Stream.digest
        (List.foldl Hash128x64Stream.update (createHash128x64 seedOpt outOpt) cs)).1
        = hash128x64 cs.flatten seedOpt outOpt :=
  ⟨hash32stream_oneshot s cs, hash128stream_oneshot seedOpt outOpt cs,
   hash128x64stream_oneshot seedOpt outOpt cs⟩

/-! ### C10: digest leaves the stream unchanged -/

/-- C10: `digest()` on any of the three streaming hashers leaves the
buffered chunks, total length, seed and output format unchanged (the method
bodies only read the fields); consequently two consecutive `digest()` calls
return equal results, and a `digest()` issued after an earlier `digest()`
and further `update` calls equals the one-shot hash of the concatenation of
all chunks appended so far. -/
theorem digest_preserves_stream (st32 : Hash32Stream) (st128 : Hash128Stream)
    (stx64 : Hash128x64Stream) (s : Int) (seedOpt : Option Int)
    (outOpt : Option HashOutput) (cs1 cs2 : List (List Nat)) :
    (Hash32Stream.digest st32).2 = st32 ∧
    (Hash128Stream.digest st128).2 = st128 ∧
    (Hash128x64Stream.digest stx64).2 = stx64 ∧
    (Hash32Stream.digest (Hash32Stream.digest st32).2).1
        = (Hash32Stream.digest st32).1 ∧
    (Hash128Stream.digest (Hash128Stream.digest st128).2).1
        = (Hash128Stream.digest st128).1 ∧
    (Hash128x64Stream.digest (Hash128x64Stream.digest stx64).2).1
        = (Hash128x64Stream.digest stx64).1 ∧
    (Hash32Stream.digest (List.foldl Hash32Stream.update
        (Hash32Stream.digest (List.foldl Hash32Stream.update (createHash32 s) cs1)).2
        cs2)).1 = hash32 (cs1 ++ cs2).flatten s ∧
    (Hash128Stream.digest (List.foldl Hash128Stream.update
        (Hash128Stream.digest (List.foldl Hash128Stream.update
          (createHash128 seedOpt outOpt) cs1)).2 cs2)).1
        = hash128 (cs1 ++ cs2).flatten seedOpt outOpt ∧
    (Hash128x64Stream.digest (List.foldl Hash128x64Stream.update
        (Hash128x64Stream.digest (List.foldl Hash128x64Stream.update
          (createHash128x64 seedOpt outOpt) cs1)).2 cs2)).1
        = hash128x64 (cs1 ++ cs2).flatten seedOpt outOpt := by
  refine ⟨rfl, rfl, rfl, rfl, rfl, rfl, ?_, ?_, ?_⟩
  · show (Hash32Stream.digest (List.foldl Hash32Stream.update
        (List.foldl Hash32Stream.update (createHash32 s) cs1) cs2)).1 = _
    rw [← List.foldl_append]
    exact hash32stream_oneshot s (cs1 ++ cs2)
  · show (Hash128Stream.digest (List.foldl Hash128Stream.update
        (List.foldl Hash128Stream.update (createHash128 seedOpt outOpt) cs1) cs2)).1 = _
    rw [← List.foldl_append]
    exact hash128stream_oneshot seedOpt outOpt (cs1 ++ cs2)
  · show (Hash128x64Stream.digest (List.foldl Hash128x64Stream.update
        (List.foldl Hash128x64Stream.update (createHash128x64 seedOpt outOpt) cs1)
        cs2)).1 = _
    rw [← List.foldl_append]
    exact hash128x64stream_oneshot seedOpt outOpt (cs1 ++ cs2)
